import Mathlib

/-!
Shallow embedding of the DriveShare Capital backend (src/main.py together with
the pydantic models of src/schemas.py): the wallet ledger (`ensure_wallet`,
`credit_wallet`) and the distribution engine (`run_distribution`,
`exit_investment`, `create_offering`).

Modelling choices:
* Monetary amounts are rationals; Python's `round(x, 2)` on floats is read as
  exact round-half-to-even at two decimals (`round2`).
* The Mongo store is a record of in-memory lists, one per collection the
  modelled operations touch, with first-match `find_one` / `update_one`
  semantics. `create_document` assigns `toString nextId` as the new `_id`.
* f-string notification texts are rendered by small total functions; no
  modelled operation reads a message back.
-/

namespace DriveShare

/-- Investment status, `Literal["active", "exited", "defaulted"]` (schemas.py). -/
inductive InvStatus
  | active
  | exited
  | defaulted
deriving DecidableEq

/-- The `meta` dict stored on a transaction: `credit_wallet` stores `meta or {}`,
so it is either `{}` or the distribution dict `{offering_id, month, per_share}`
built at main.py line 249. -/
inductive Meta
  | empty
  | distribution (offering_id : String) (month : Int) (per_share : ℚ)
deriving DecidableEq

/-- Wallet document (schemas.py `Wallet` plus the store's `_id`). -/
structure Wallet where
  id : String
  user_id : String
  balance : ℚ
  currency : String
deriving DecidableEq

/-- Transaction document (schemas.py `Transaction`). -/
structure Transaction where
  user_id : String
  type : String
  amount : ℚ
  reference_id : Option String
  meta : Meta
deriving DecidableEq

/-- Offering document: the fields the modelled operations read
(`cars_count`, `shares_total`), plus the store's `_id`. -/
structure Offering where
  id : String
  cars_count : Int
  shares_total : Int
deriving DecidableEq

/-- Investment document: the fields the modelled operations read, plus `_id`. -/
structure Investment where
  id : String
  user_id : String
  offering_id : String
  shares : Int
  status : InvStatus
deriving DecidableEq

/-- Distribution document (schemas.py `Distribution`). -/
structure Distribution where
  offering_id : String
  month : Int
  total_amount : ℚ
  per_share : ℚ
deriving DecidableEq

/-- Notification document (schemas.py `Notification`). -/
structure Notification where
  user_id : String
  title : String
  message : String
  read : Bool
deriving DecidableEq

/-- The document store: the collections touched by the modelled operations. -/
structure St where
  wallets : List Wallet
  transactions : List Transaction
  investments : List Investment
  offerings : List Offering
  distributions : List Distribution
  notifications : List Notification
  nextId : Nat
deriving DecidableEq

def emptySt : St :=
  { wallets := [], transactions := [], investments := [], offerings := [],
    distributions := [], notifications := [], nextId := 0 }

def usd : String := "USD"
def txTopup : String := "topup"
def txInstalmentPayment : String := "instalment_payment"
def txRental : String := "rental_distribution"
def txExitPayout : String := "exit_payout"
def titleMonthly : String := "Monthly Distribution"
def titleExitDone : String := "Exit Processed"

/-- `db["wallet"].find_one({"user_id": uid})`: first wallet of the user. -/
def findWalletByUser (ws : List Wallet) (uid : String) : Option Wallet :=
  ws.find? (fun w => decide (w.user_id = uid))

def findWallet (st : St) (uid : String) : Option Wallet :=
  findWalletByUser st.wallets uid

/-- A value used as `_id` in a Mongo filter. At main.py line 35 the outer
`find_one` receives a whole wallet document (or `None`) as the `_id` value;
stored `_id`s are plain ids, so only a plain id can match a document. -/
inductive IdFilter
  | byId (i : String)
  | byDoc (w : Wallet)
  | byNull

def findWalletByIdFilter (ws : List Wallet) : IdFilter → Option Wallet
  | IdFilter.byId i => ws.find? (fun w => decide (w.id = i))
  | IdFilter.byDoc _ => none
  | IdFilter.byNull => none

def idFilterOf : Option Wallet → IdFilter
  | some w => IdFilter.byDoc w
  | none => IdFilter.byNull

/-- `ensure_wallet` (main.py 31-36). On the miss path the source creates the
wallet with zero balance, then returns
`db["wallet"].find_one({"_id": db["wallet"].find_one({"_id": wid})})`:
the outer filter's `_id` value is the freshly found wallet document itself. -/
def ensure_wallet (st : St) (uid : String) : Option Wallet × St :=
  match findWallet st uid with
  | some w => (some w, st)
  | none =>
    let w : Wallet := { id := toString st.nextId, user_id := uid, balance := 0, currency := usd }
    let st2 : St := { st with wallets := st.wallets ++ [w], nextId := st.nextId + 1 }
    (findWalletByIdFilter st2.wallets
      (idFilterOf (findWalletByIdFilter st2.wallets (IdFilter.byId w.id))), st2)

/-- `update_one({"user_id": uid}, {"$inc": {"balance": amt}})`: Mongo updates
the first matching document only. -/
def incBalanceFirst : List Wallet → String → ℚ → List Wallet
  | [], _, _ => []
  | w :: ws, uid, amt =>
    if w.user_id = uid then { w with balance := w.balance + amt } :: ws
    else w :: incBalanceFirst ws uid amt

def metaOrEmpty : Option Meta → Meta
  | some m => m
  | none => Meta.empty

/-- `credit_wallet` (main.py 39-42): ensure the wallet, atomically increment its
balance, then append one `Transaction` recording the amount. -/
def credit_wallet (st : St) (uid : String) (amount : ℚ) (tx_type : String)
    (reference_id : Option String) (meta : Option Meta) : St :=
  let st1 := (ensure_wallet st uid).2
  let st2 := { st1 with wallets := incBalanceFirst st1.wallets uid amount }
  { st2 with transactions := st2.transactions ++
      [{ user_id := uid, type := tx_type, amount := amount,
         reference_id := reference_id, meta := metaOrEmpty meta }] }

/-- `notify` (main.py 45-46). -/
def notify (st : St) (uid : String) (title : String) (message : String) : St :=
  { st with notifications := st.notifications ++
      [{ user_id := uid, title := title, message := message, read := false }] }

/-- Python's `round` is round-half-to-even; read on exact rationals (the source
applies it to binary doubles). -/
def roundHalfEven (x : ℚ) : Int :=
  let f : Int := ⌊x⌋
  let r : ℚ := x - (f : ℚ)
  if r < 1/2 then f
  else if 1/2 < r then f + 1
  else if f % 2 = 0 then f else f + 1

/-- `round(x, 2)`: round to two decimal places. -/
def round2 (x : ℚ) : ℚ := ((roundHalfEven (x * 100) : Int) : ℚ) / 100

/-- Rendering of the f-string "${amount:.2f} credited for month {m}". -/
def distMsg (amount : ℚ) (month : Int) : String :=
  "$" ++ toString amount.num ++ "/" ++ toString amount.den
    ++ " credited for month " ++ toString month

/-- Rendering of the f-string "Exit payout ${payout:.2f} credited". -/
def exitMsg (payout : ℚ) : String :=
  "Exit payout $" ++ toString payout.num ++ "/" ++ toString payout.den ++ " credited"

/-- `fastapi.HTTPException`: status code and detail. 404 carries the spec's
NotFound, 400 the spec's InvalidState / ValidationError. -/
structure HTTPException where
  status_code : Nat
  detail : String
deriving DecidableEq

def offeringNotFound : HTTPException :=
  { status_code := 404, detail := "Offering not found" }
def offeringNoShares : HTTPException :=
  { status_code := 400, detail := "Offering has no shares_total" }
def investmentNotFound : HTTPException :=
  { status_code := 404, detail := "Investment not found" }
def sharesTooLow : HTTPException :=
  { status_code := 400, detail := "shares_total must be at least cars_count * 10" }

/-- Pydantic constraints of schemas.py `Offering` on the modelled fields:
`cars_count ≥ 1` and `shares_total ≥ 10`. -/
def Offering.valid (o : Offering) : Prop :=
  1 ≤ o.cars_count ∧ 10 ≤ o.shares_total

/-- `create_offering` (main.py 151-156); on success the store assigns the new
document id. -/
def create_offering (st : St) (off : Offering) : Except HTTPException (String × St) :=
  if off.shares_total < off.cars_count * 10 then Except.error sharesTooLow
  else
    Except.ok (toString st.nextId,
      { st with offerings := st.offerings ++ [{ off with id := toString st.nextId }],
                nextId := st.nextId + 1 })

/-- Request model `RunDistribution` (main.py 224-227). -/
structure RunDistribution where
  offering_id : String
  month : Int
  total_amount : ℚ

/-- `db["offering"].find_one({"_id": oid}) or ...find_one({"id": oid})`; stored
offering documents have no "id" field, so the fallback never matches and the
lookup is by `_id` alone. -/
def findOffering (st : St) (oid : String) : Option Offering :=
  st.offerings.find? (fun o => decide (o.id = oid))

/-- `db["investment"].find({"offering_id": oid, "status": "active"})`. -/
def activeInvs (st : St) (oid : String) : List Investment :=
  st.investments.filter (fun i => decide (i.offering_id = oid ∧ i.status = InvStatus.active))

/-- Body of the distribution loop (main.py 243-250): round the pro-rata amount,
skip when it is exactly zero, otherwise credit and notify. -/
def distribStep (oid : String) (month : Int) (per_share : ℚ) (st : St)
    (inv : Investment) : St :=
  let amount := round2 ((inv.shares : ℚ) * per_share)
  if amount = 0 then st
  else
    let st1 := credit_wallet st inv.user_id amount txRental (some inv.id)
      (some (Meta.distribution oid month per_share))
    notify st1 inv.user_id titleMonthly (distMsg amount month)

/-- `run_distribution` (main.py 230-253). -/
def run_distribution (st : St) (req : RunDistribution) : Except HTTPException (ℚ × St) :=
  match findOffering st req.offering_id with
  | none => Except.error offeringNotFound
  | some off =>
    if off.shares_total ≤ 0 then Except.error offeringNoShares
    else
      let per_share := req.total_amount / ((off.shares_total : Int) : ℚ)
      let st1 := (activeInvs st req.offering_id).foldl
        (distribStep req.offering_id req.month per_share) st
      Except.ok (per_share,
        { st1 with distributions := st1.distributions ++
            [{ offering_id := req.offering_id, month := req.month,
               total_amount := req.total_amount, per_share := per_share }] })

/-- Request model `ExitRequest` (main.py 256-257). -/
structure ExitRequest where
  investment_id : String

/-- `db["investment"].find_one({"_id": iid}) or ...find_one({"id": iid})`;
as with offerings, only the `_id` lookup can match. -/
def findInvestment (st : St) (iid : String) : Option Investment :=
  st.investments.find? (fun i => decide (i.id = iid))

/-- `update_one({"_id": iid}, {"$set": {"status": "exited"}})`: first match. -/
def setExitedFirst : List Investment → String → List Investment
  | [], _ => []
  | i :: is, iid =>
    if i.id = iid then { i with status := InvStatus.exited } :: is
    else i :: setExitedFirst is iid

/-- `exit_investment` (main.py 260-269): look up the investment, mark it
exited, pay out `round(shares * 0.9 * 100, 2)`, credit, notify. -/
def exit_investment (st : St) (body : ExitRequest) : Except HTTPException (ℚ × St) :=
  match findInvestment st body.investment_id with
  | none => Except.error investmentNotFound
  | some inv =>
    let st1 : St := { st with investments := setExitedFirst st.investments inv.id }
    let payout := round2 ((inv.shares : ℚ) * (9 / 10) * 100)
    let st2 := credit_wallet st1 inv.user_id payout txExitPayout (some inv.id) none
    let st3 := notify st2 inv.user_id titleExitDone (exitMsg payout)
    Except.ok (payout, st3)

/-- Balance read off a wallet list: zero when the wallet is absent. -/
def walletBal (ws : List Wallet) (uid : String) : ℚ :=
  match findWalletByUser ws uid with
  | some w => w.balance
  | none => 0

/-- Observed balance: `get_wallet` falls back to a zero balance when the wallet
is absent (main.py 209). -/
def balanceOf (st : St) (uid : String) : ℚ :=
  walletBal st.wallets uid

/-- The transaction log entries of one user. -/
def txsFor (st : St) (uid : String) : List Transaction :=
  st.transactions.filter (fun t => decide (t.user_id = uid))

/-- The wallets of one user (the invariant says there is at most one). -/
def walletsFor (st : St) (uid : String) : List Wallet :=
  st.wallets.filter (fun w => decide (w.user_id = uid))

/-- One `credit_wallet` call's arguments for a fixed user. -/
structure CreditCall where
  amount : ℚ
  tx_type : String
  reference_id : Option String
  meta : Option Meta

/-- The transaction a `credit_wallet` call appends. -/
def creditTx (uid : String) (c : CreditCall) : Transaction :=
  { user_id := uid, type := c.tx_type, amount := c.amount,
    reference_id := c.reference_id, meta := metaOrEmpty c.meta }

/-- Run a sequence of `credit_wallet` calls for one user. -/
def applyCredits (st : St) (uid : String) : List CreditCall → St
  | [] => st
  | c :: cs => applyCredits (credit_wallet st uid c.amount c.tx_type c.reference_id c.meta) uid cs

/-- The transaction `run_distribution` writes for one credited investment. -/
def distTx (oid : String) (month : Int) (ps : ℚ) (inv : Investment) : Transaction :=
  { user_id := inv.user_id, type := txRental, amount := round2 ((inv.shares : ℚ) * ps),
    reference_id := some inv.id, meta := Meta.distribution oid month ps }

/-- The investments whose rounded entitlement is nonzero (the credited ones). -/
def nonzeroEnt (ps : ℚ) (invs : List Investment) : List Investment :=
  invs.filter (fun i => decide (round2 ((i.shares : ℚ) * ps) ≠ 0))

def distTxs (oid : String) (month : Int) (ps : ℚ) (invs : List Investment) : List Transaction :=
  (nonzeroEnt ps invs).map (distTx oid month ps)

/-- The notification `run_distribution` emits for one credited investment. -/
def distNote (month : Int) (ps : ℚ) (inv : Investment) : Notification :=
  { user_id := inv.user_id, title := titleMonthly,
    message := distMsg (round2 ((inv.shares : ℚ) * ps)) month, read := false }

def distNotes (month : Int) (ps : ℚ) (invs : List Investment) : List Notification :=
  (nonzeroEnt ps invs).map (distNote month ps)

/-- Sum of the rounded pro-rata entitlements of one user over a list of
investments. -/
def entSum (ps : ℚ) (invs : List Investment) (uid : String) : ℚ :=
  ((invs.filter (fun i => decide (i.user_id = uid))).map
    (fun i => round2 ((i.shares : ℚ) * ps))).sum

/-- The transaction and notification `exit_investment` writes. -/
def exitTx (inv : Investment) : Transaction :=
  { user_id := inv.user_id, type := txExitPayout,
    amount := round2 ((inv.shares : ℚ) * (9 / 10) * 100),
    reference_id := some inv.id, meta := Meta.empty }

def exitNote (inv : Investment) : Notification :=
  { user_id := inv.user_id, title := titleExitDone,
    message := exitMsg (round2 ((inv.shares : ℚ) * (9 / 10) * 100)), read := false }

end DriveShare

namespace DriveShare

/-! ### Ledger lemmas -/

theorem walletBal_eq (ws : List Wallet) (uid : String) :
    walletBal ws uid =
      match findWalletByUser ws uid with
      | some w => w.balance
      | none => 0 := rfl

theorem walletBal_congr {ws ws2 : List Wallet} {uid uid2 : String}
    (h : findWalletByUser ws uid = findWalletByUser ws2 uid2) :
    walletBal ws uid = walletBal ws2 uid2 := by
  rw [walletBal_eq ws uid, walletBal_eq ws2 uid2, h]

/-- The state component of `ensure_wallet`: unchanged on a hit, one fresh
zero-balance wallet appended on a miss. -/
theorem ensure_wallet_snd (st : St) (uid : String) :
    (ensure_wallet st uid).2 =
      match findWallet st uid with
      | some _ => st
      | none => { st with
          wallets := st.wallets ++
            [{ id := toString st.nextId, user_id := uid, balance := 0, currency := usd }],
          nextId := st.nextId + 1 } := by
  unfold ensure_wallet
  cases findWallet st uid <;> rfl

theorem ensure_wallet_transactions (st : St) (uid : String) :
    (ensure_wallet st uid).2.transactions = st.transactions := by
  rw [ensure_wallet_snd]; cases findWallet st uid <;> rfl

theorem ensure_wallet_investments (st : St) (uid : String) :
    (ensure_wallet st uid).2.investments = st.investments := by
  rw [ensure_wallet_snd]; cases findWallet st uid <;> rfl

theorem ensure_wallet_offerings (st : St) (uid : String) :
    (ensure_wallet st uid).2.offerings = st.offerings := by
  rw [ensure_wallet_snd]; cases findWallet st uid <;> rfl

theorem ensure_wallet_distributions (st : St) (uid : String) :
    (ensure_wallet st uid).2.distributions = st.distributions := by
  rw [ensure_wallet_snd]; cases findWallet st uid <;> rfl

theorem ensure_wallet_notifications (st : St) (uid : String) :
    (ensure_wallet st uid).2.notifications = st.notifications := by
  rw [ensure_wallet_snd]; cases findWallet st uid <;> rfl

theorem findWalletByUser_append_single (ws : List Wallet) (w : Wallet) (uid : String) :
    findWalletByUser (ws ++ [w]) uid =
      (findWalletByUser ws uid).or (if w.user_id = uid then some w else none) := by
  by_cases h : w.user_id = uid <;>
    simp [findWalletByUser, List.find?_append, List.find?, h]

theorem ensure_wallet_walletBal (st : St) (uid uid2 : String) :
    walletBal (ensure_wallet st uid).2.wallets uid2 = walletBal st.wallets uid2 := by
  rw [ensure_wallet_snd]
  cases h : findWallet st uid with
  | some w => rfl
  | none =>
    unfold walletBal
    show (match findWalletByUser (st.wallets ++
        [{ id := toString st.nextId, user_id := uid, balance := 0, currency := usd }]) uid2 with
      | some w => w.balance
      | none => 0) = _
    rw [findWalletByUser_append_single]
    by_cases h2 : uid = uid2
    · subst h2
      have h3 : findWalletByUser st.wallets uid = none := h
      simp [h3]
    · simp [h2]

theorem ensure_wallet_balanceOf (st : St) (uid uid2 : String) :
    balanceOf (ensure_wallet st uid).2 uid2 = balanceOf st uid2 :=
  ensure_wallet_walletBal st uid uid2

theorem ensure_wallet_findWallet_self (st : St) (uid : String) :
    ∃ w, findWalletByUser (ensure_wallet st uid).2.wallets uid = some w ∧
      w.balance = walletBal st.wallets uid := by
  rw [ensure_wallet_snd]
  cases h : findWallet st uid with
  | some w =>
    have h2 : findWalletByUser st.wallets uid = some w := h
    exact ⟨w, h2, by unfold walletBal; rw [h2]⟩
  | none =>
    have h2 : findWalletByUser st.wallets uid = none := h
    refine ⟨{ id := toString st.nextId, user_id := uid, balance := 0, currency := usd },
      ?_, ?_⟩
    · show findWalletByUser (st.wallets ++
        [{ id := toString st.nextId, user_id := uid, balance := 0, currency := usd }]) uid = _
      rw [findWalletByUser_append_single, h2]
      simp
    · unfold walletBal
      rw [h2]

theorem findWalletByUser_incBalance_self (ws : List Wallet) (uid : String) (amt : ℚ) :
    findWalletByUser (incBalanceFirst ws uid amt) uid =
      Option.map (fun w => { w with balance := w.balance + amt }) (findWalletByUser ws uid) := by
  induction ws with
  | nil => rfl
  | cons w ws ih =>
    by_cases h : w.user_id = uid
    · simp [incBalanceFirst, findWalletByUser, List.find?, h]
    · simp only [incBalanceFirst, if_neg h]
      simp only [findWalletByUser, List.find?] at ih ⊢
      simp [h, ih]

theorem findWalletByUser_incBalance_other (ws : List Wallet) (uid uid2 : String) (amt : ℚ)
    (h : uid2 ≠ uid) :
    findWalletByUser (incBalanceFirst ws uid amt) uid2 = findWalletByUser ws uid2 := by
  have hne : ¬ uid = uid2 := fun hh => h hh.symm
  induction ws with
  | nil => rfl
  | cons w ws ih =>
    by_cases hw : w.user_id = uid
    · have hw2 : ¬ w.user_id = uid2 := by rw [hw]; exact hne
      simp [incBalanceFirst, findWalletByUser, List.find?, hw, hw2, hne]
    · by_cases hw2 : w.user_id = uid2
      · simp [incBalanceFirst, findWalletByUser, List.find?, hw, hw2, h]
      · simp only [incBalanceFirst, if_neg hw]
        simp only [findWalletByUser, List.find?] at ih ⊢
        simp [hw2, ih]

/-- `credit_wallet` written as one record update. -/
theorem credit_wallet_eq (st : St) (uid : String) (amount : ℚ) (ty : String)
    (ref : Option String) (m : Option Meta) :
    credit_wallet st uid amount ty ref m =
      { (ensure_wallet st uid).2 with
        wallets := incBalanceFirst (ensure_wallet st uid).2.wallets uid amount,
        transactions := (ensure_wallet st uid).2.transactions ++
          [{ user_id := uid, type := ty, amount := amount,
             reference_id := ref, meta := metaOrEmpty m }] } := rfl

theorem credit_wallet_transactions (st : St) (uid : String) (amount : ℚ) (ty : String)
    (ref : Option String) (m : Option Meta) :
    (credit_wallet st uid amount ty ref m).transactions = st.transactions ++
      [{ user_id := uid, type := ty, amount := amount,
         reference_id := ref, meta := metaOrEmpty m }] := by
  rw [credit_wallet_eq]
  simp [ensure_wallet_transactions]

theorem credit_wallet_investments (st : St) (uid : String) (amount : ℚ) (ty : String)
    (ref : Option String) (m : Option Meta) :
    (credit_wallet st uid amount ty ref m).investments = st.investments := by
  rw [credit_wallet_eq]
  simp [ensure_wallet_investments]

theorem credit_wallet_offerings (st : St) (uid : String) (amount : ℚ) (ty : String)
    (ref : Option String) (m : Option Meta) :
    (credit_wallet st uid amount ty ref m).offerings = st.offerings := by
  rw [credit_wallet_eq]
  simp [ensure_wallet_offerings]

theorem credit_wallet_distributions (st : St) (uid : String) (amount : ℚ) (ty : String)
    (ref : Option String) (m : Option Meta) :
    (credit_wallet st uid amount ty ref m).distributions = st.distributions := by
  rw [credit_wallet_eq]
  simp [ensure_wallet_distributions]

theorem credit_wallet_notifications (st : St) (uid : String) (amount : ℚ) (ty : String)
    (ref : Option String) (m : Option Meta) :
    (credit_wallet st uid amount ty ref m).notifications = st.notifications := by
  rw [credit_wallet_eq]
  simp [ensure_wallet_notifications]

theorem credit_wallet_balanceOf (st : St) (uid : String) (amount : ℚ) (ty : String)
    (ref : Option String) (m : Option Meta) (uid2 : String) :
    balanceOf (credit_wallet st uid amount ty ref m) uid2 =
      balanceOf st uid2 + (if uid = uid2 then amount else 0) := by
  unfold balanceOf
  rw [credit_wallet_eq]
  show walletBal (incBalanceFirst (ensure_wallet st uid).2.wallets uid amount) uid2 = _
  by_cases h : uid = uid2
  · subst h
    obtain ⟨w, hw, hbw⟩ := ensure_wallet_findWallet_self st uid
    have h1 : findWalletByUser (incBalanceFirst (ensure_wallet st uid).2.wallets uid amount) uid
        = some { w with balance := w.balance + amount } := by
      rw [findWalletByUser_incBalance_self, hw]; rfl
    rw [walletBal_eq, h1, if_pos rfl]
    show w.balance + amount = walletBal st.wallets uid + amount
    rw [hbw]
  · rw [if_neg h, add_zero]
    have h1 : walletBal (incBalanceFirst (ensure_wallet st uid).2.wallets uid amount) uid2
        = walletBal (ensure_wallet st uid).2.wallets uid2 :=
      walletBal_congr (findWalletByUser_incBalance_other _ _ _ _ (fun hh => h hh.symm))
    rw [h1, ensure_wallet_walletBal]

theorem notify_transactions (st : St) (uid title msg : String) :
    (notify st uid title msg).transactions = st.transactions := rfl

theorem notify_investments (st : St) (uid title msg : String) :
    (notify st uid title msg).investments = st.investments := rfl

theorem notify_offerings (st : St) (uid title msg : String) :
    (notify st uid title msg).offerings = st.offerings := rfl

theorem notify_distributions (st : St) (uid title msg : String) :
    (notify st uid title msg).distributions = st.distributions := rfl

theorem notify_notifications (st : St) (uid title msg : String) :
    (notify st uid title msg).notifications = st.notifications ++
      [{ user_id := uid, title := title, message := msg, read := false }] := rfl

theorem notify_balanceOf (st : St) (uid title msg : String) (uid2 : String) :
    balanceOf (notify st uid title msg) uid2 = balanceOf st uid2 := rfl

end DriveShare

namespace DriveShare

/-! ### Distribution-loop lemmas -/

theorem distribStep_transactions (oid : String) (month : Int) (ps : ℚ) (st : St)
    (inv : Investment) :
    (distribStep oid month ps st inv).transactions =
      st.transactions ++
        (if round2 ((inv.shares : ℚ) * ps) = 0 then [] else [distTx oid month ps inv]) := by
  by_cases h : round2 ((inv.shares : ℚ) * ps) = 0
  · simp [distribStep, h]
  · simp [distribStep, h, notify_transactions, credit_wallet_transactions, distTx, metaOrEmpty]

theorem distribStep_notifications (oid : String) (month : Int) (ps : ℚ) (st : St)
    (inv : Investment) :
    (distribStep oid month ps st inv).notifications =
      st.notifications ++
        (if round2 ((inv.shares : ℚ) * ps) = 0 then [] else [distNote month ps inv]) := by
  by_cases h : round2 ((inv.shares : ℚ) * ps) = 0
  · simp [distribStep, h]
  · simp [distribStep, h, notify_notifications, credit_wallet_notifications, distNote]

theorem distribStep_balanceOf (oid : String) (month : Int) (ps : ℚ) (st : St)
    (inv : Investment) (uid : String) :
    balanceOf (distribStep oid month ps st inv) uid =
      balanceOf st uid + (if inv.user_id = uid then round2 ((inv.shares : ℚ) * ps) else 0) := by
  by_cases h : round2 ((inv.shares : ℚ) * ps) = 0
  · by_cases h2 : inv.user_id = uid <;> simp [distribStep, h, h2]
  · by_cases h2 : inv.user_id = uid <;>
      simp [distribStep, h, h2, notify_balanceOf, credit_wallet_balanceOf]

theorem distribStep_investments (oid : String) (month : Int) (ps : ℚ) (st : St)
    (inv : Investment) :
    (distribStep oid month ps st inv).investments = st.investments := by
  by_cases h : round2 ((inv.shares : ℚ) * ps) = 0 <;>
    simp [distribStep, h, notify_investments, credit_wallet_investments]

theorem distribStep_offerings (oid : String) (month : Int) (ps : ℚ) (st : St)
    (inv : Investment) :
    (distribStep oid month ps st inv).offerings = st.offerings := by
  by_cases h : round2 ((inv.shares : ℚ) * ps) = 0 <;>
    simp [distribStep, h, notify_offerings, credit_wallet_offerings]

theorem distribStep_distributions (oid : String) (month : Int) (ps : ℚ) (st : St)
    (inv : Investment) :
    (distribStep oid month ps st inv).distributions = st.distributions := by
  by_cases h : round2 ((inv.shares : ℚ) * ps) = 0 <;>
    simp [distribStep, h, notify_distributions, credit_wallet_distributions]

theorem foldl_distribStep_transactions (oid : String) (month : Int) (ps : ℚ)
    (invs : List Investment) :
    ∀ st : St, (invs.foldl (distribStep oid month ps) st).transactions =
      st.transactions ++ distTxs oid month ps invs := by
  induction invs with
  | nil => intro st; simp [distTxs, nonzeroEnt]
  | cons i is ih =>
    intro st
    rw [List.foldl_cons, ih, distribStep_transactions]
    by_cases h : round2 ((i.shares : ℚ) * ps) = 0 <;>
      simp [h, distTxs, nonzeroEnt, List.filter_cons]

theorem foldl_distribStep_notifications (oid : String) (month : Int) (ps : ℚ)
    (invs : List Investment) :
    ∀ st : St, (invs.foldl (distribStep oid month ps) st).notifications =
      st.notifications ++ distNotes month ps invs := by
  induction invs with
  | nil => intro st; simp [distNotes, nonzeroEnt]
  | cons i is ih =>
    intro st
    rw [List.foldl_cons, ih, distribStep_notifications]
    by_cases h : round2 ((i.shares : ℚ) * ps) = 0 <;>
      simp [h, distNotes, nonzeroEnt, List.filter_cons]

theorem entSum_cons (ps : ℚ) (i : Investment) (is : List Investment) (uid : String) :
    entSum ps (i :: is) uid =
      (if i.user_id = uid then round2 ((i.shares : ℚ) * ps) else 0) + entSum ps is uid := by
  by_cases h : i.user_id = uid <;> simp [entSum, List.filter_cons, h]

theorem foldl_distribStep_balanceOf (oid : String) (month : Int) (ps : ℚ)
    (invs : List Investment) :
    ∀ (st : St) (uid : String),
      balanceOf (invs.foldl (distribStep oid month ps) st) uid =
        balanceOf st uid + entSum ps invs uid := by
  induction invs with
  | nil => intro st uid; simp [entSum]
  | cons i is ih =>
    intro st uid
    rw [List.foldl_cons, ih, distribStep_balanceOf, entSum_cons]
    ring

theorem foldl_distribStep_investments (oid : String) (month : Int) (ps : ℚ)
    (invs : List Investment) :
    ∀ st : St, (invs.foldl (distribStep oid month ps) st).investments = st.investments := by
  induction invs with
  | nil => intro st; rfl
  | cons i is ih => intro st; rw [List.foldl_cons, ih, distribStep_investments]

theorem foldl_distribStep_offerings (oid : String) (month : Int) (ps : ℚ)
    (invs : List Investment) :
    ∀ st : St, (invs.foldl (distribStep oid month ps) st).offerings = st.offerings := by
  induction invs with
  | nil => intro st; rfl
  | cons i is ih => intro st; rw [List.foldl_cons, ih, distribStep_offerings]

theorem foldl_distribStep_distributions (oid : String) (month : Int) (ps : ℚ)
    (invs : List Investment) :
    ∀ st : St, (invs.foldl (distribStep oid month ps) st).distributions = st.distributions := by
  induction invs with
  | nil => intro st; rfl
  | cons i is ih => intro st; rw [List.foldl_cons, ih, distribStep_distributions]

/-- Full characterization of a successful `run_distribution`. -/
theorem run_distribution_ok (st : St) (req : RunDistribution) (off : Offering)
    (hoff : findOffering st req.offering_id = some off) (hpos : 0 < off.shares_total) :
    ∃ st2,
      run_distribution st req =
        Except.ok (req.total_amount / (off.shares_total : ℚ), st2) ∧
      st2.transactions = st.transactions ++
        distTxs req.offering_id req.month (req.total_amount / (off.shares_total : ℚ))
          (activeInvs st req.offering_id) ∧
      st2.notifications = st.notifications ++
        distNotes req.month (req.total_amount / (off.shares_total : ℚ))
          (activeInvs st req.offering_id) ∧
      st2.distributions = st.distributions ++
        [{ offering_id := req.offering_id, month := req.month,
           total_amount := req.total_amount,
           per_share := req.total_amount / (off.shares_total : ℚ) }] ∧
      st2.investments = st.investments ∧
      st2.offerings = st.offerings ∧
      (∀ uid, balanceOf st2 uid = balanceOf st uid +
        entSum (req.total_amount / (off.shares_total : ℚ))
          (activeInvs st req.offering_id) uid) := by
  unfold run_distribution
  simp only [hoff]
  rw [if_neg (by omega)]
  refine ⟨_, rfl, ?_, ?_, ?_, ?_, ?_, ?_⟩
  · show ((activeInvs st req.offering_id).foldl
        (distribStep req.offering_id req.month (req.total_amount / (off.shares_total : ℚ))) st).transactions
      = _
    rw [foldl_distribStep_transactions]
  · show ((activeInvs st req.offering_id).foldl
        (distribStep req.offering_id req.month (req.total_amount / (off.shares_total : ℚ))) st).notifications
      = _
    rw [foldl_distribStep_notifications]
  · show ((activeInvs st req.offering_id).foldl
        (distribStep req.offering_id req.month (req.total_amount / (off.shares_total : ℚ))) st).distributions
        ++ [{ offering_id := req.offering_id, month := req.month,
              total_amount := req.total_amount,
              per_share := req.total_amount / (off.shares_total : ℚ) }]
      = _
    rw [foldl_distribStep_distributions]
  · show ((activeInvs st req.offering_id).foldl
        (distribStep req.offering_id req.month (req.total_amount / (off.shares_total : ℚ))) st).investments
      = _
    rw [foldl_distribStep_investments]
  · show ((activeInvs st req.offering_id).foldl
        (distribStep req.offering_id req.month (req.total_amount / (off.shares_total : ℚ))) st).offerings
      = _
    rw [foldl_distribStep_offerings]
  · intro uid
    show balanceOf ((activeInvs st req.offering_id).foldl
        (distribStep req.offering_id req.month (req.total_amount / (off.shares_total : ℚ))) st) uid
      = _
    rw [foldl_distribStep_balanceOf]

end DriveShare

namespace DriveShare

/-! ### Exit lemmas -/

theorem findInvestment_id (st : St) (iid : String) (inv : Investment)
    (h : findInvestment st iid = some inv) : inv.id = iid := by
  have h2 := List.find?_some h
  simpa using h2

theorem find?_setExitedFirst (invs : List Investment) (iid : String) (inv : Investment)
    (h : invs.find? (fun i => decide (i.id = iid)) = some inv) :
    (setExitedFirst invs inv.id).find? (fun i => decide (i.id = iid)) =
      some { inv with status := InvStatus.exited } := by
  induction invs with
  | nil => simp at h
  | cons a l ih =>
    by_cases ha : a.id = iid
    · rw [List.find?_cons_of_pos _ (by simpa using ha)] at h
      have hai : a = inv := by injection h
      subst hai
      simp only [setExitedFirst, if_pos rfl]
      exact List.find?_cons_of_pos _ (by simpa using ha)
    · rw [List.find?_cons_of_neg _ (by simpa using ha)] at h
      have hid : inv.id = iid := by simpa using List.find?_some h
      have hane : ¬ a.id = inv.id := by rw [hid]; exact ha
      simp only [setExitedFirst, if_neg hane]
      rw [List.find?_cons_of_neg _ (by simpa using ha)]
      exact ih h

/-- Full characterization of a successful `exit_investment`. -/
theorem exit_investment_ok (st : St) (iid : String) (inv : Investment)
    (h : findInvestment st iid = some inv) :
    ∃ st3, exit_investment st { investment_id := iid } =
        Except.ok (round2 ((inv.shares : ℚ) * (9 / 10) * 100), st3) ∧
      st3.investments = setExitedFirst st.investments inv.id ∧
      findInvestment st3 iid = some { inv with status := InvStatus.exited } ∧
      st3.transactions = st.transactions ++ [exitTx inv] ∧
      st3.notifications = st.notifications ++ [exitNote inv] ∧
      st3.offerings = st.offerings ∧
      st3.distributions = st.distributions ∧
      (∀ uid, balanceOf st3 uid = balanceOf st uid +
        (if inv.user_id = uid then round2 ((inv.shares : ℚ) * (9 / 10) * 100) else 0)) := by
  unfold exit_investment
  simp only [h]
  refine ⟨_, rfl, ?_, ?_, ?_, ?_, ?_, ?_, ?_⟩
  · rw [notify_investments, credit_wallet_investments]
  · unfold findInvestment
    rw [notify_investments, credit_wallet_investments]
    show (setExitedFirst st.investments inv.id).find? (fun i => decide (i.id = iid)) = _
    exact find?_setExitedFirst st.investments iid inv h
  · rw [notify_transactions, credit_wallet_transactions]
    rfl
  · rw [notify_notifications, credit_wallet_notifications]
    rfl
  · rw [notify_offerings, credit_wallet_offerings]
  · rw [notify_distributions, credit_wallet_distributions]
  · intro uid
    rw [notify_balanceOf, credit_wallet_balanceOf]
    rfl

/-! ### Credit-sequence lemmas -/

theorem applyCredits_transactions (uid : String) (calls : List CreditCall) :
    ∀ st : St, (applyCredits st uid calls).transactions =
      st.transactions ++ calls.map (creditTx uid) := by
  induction calls with
  | nil => intro st; simp [applyCredits]
  | cons c cs ih =>
    intro st
    show (applyCredits (credit_wallet st uid c.amount c.tx_type c.reference_id c.meta)
        uid cs).transactions = _
    rw [ih, credit_wallet_transactions]
    simp [creditTx]

theorem applyCredits_balanceOf (uid : String) (calls : List CreditCall) :
    ∀ st : St, balanceOf (applyCredits st uid calls) uid =
      balanceOf st uid + (calls.map CreditCall.amount).sum := by
  induction calls with
  | nil => intro st; simp [applyCredits]
  | cons c cs ih =>
    intro st
    show balanceOf (applyCredits (credit_wallet st uid c.amount c.tx_type c.reference_id c.meta)
        uid cs) uid = _
    rw [ih, credit_wallet_balanceOf, if_pos rfl]
    simp
    ring

theorem txsFor_applyCredits (st : St) (uid : String) (calls : List CreditCall) :
    txsFor (applyCredits st uid calls) uid = txsFor st uid ++ calls.map (creditTx uid) := by
  unfold txsFor
  rw [applyCredits_transactions, List.filter_append]
  congr 1
  induction calls with
  | nil => rfl
  | cons c cs ih => simp [creditTx, List.filter_cons, ih]

end DriveShare

namespace DriveShare

/-! ### Concrete fixtures used by the witnesses -/

def u1 : String := "u1"
def uA : String := "alice"
def uB : String := "bob"
def uC : String := "carol"
def uZ : String := "zed"
def uNZ : String := "nora"
def u5 : String := "dana"
def uX : String := "xena"
def zeroId : String := "0"
def emptyId : String := ""
def oid1 : String := "off-1"
def oidMissing : String := "off-missing"
def oid0 : String := "off-0"
def oidC4 : String := "off-c4"
def oidC6 : String := "off-c6"
def iA : String := "inv-a"
def iB : String := "inv-b"
def iC : String := "inv-c"
def i5 : String := "inv-5"
def iZ : String := "inv-z"
def iNZ : String := "inv-nz"
def iX : String := "inv-x"
def refStr : String := "ref-1"

def offW : Offering := { id := oid1, cars_count := 10, shares_total := 100 }
def invA : Investment :=
  { id := iA, user_id := uA, offering_id := oid1, shares := 30, status := InvStatus.active }
def invB : Investment :=
  { id := iB, user_id := uB, offering_id := oid1, shares := 70, status := InvStatus.active }
def invC : Investment :=
  { id := iC, user_id := uC, offering_id := oid1, shares := 50, status := InvStatus.exited }
def stW : St := { emptySt with offerings := [offW], investments := [invA, invB, invC] }
def reqW : RunDistribution := { offering_id := oid1, month := 3, total_amount := 1000 }

def off0 : Offering := { id := oid0, cars_count := 1, shares_total := 0 }
def stC3 : St := { emptySt with offerings := [off0] }
def reqMissing : RunDistribution := { offering_id := oidMissing, month := 1, total_amount := 5 }
def reqZero : RunDistribution := { offering_id := oid0, month := 1, total_amount := 5 }

def offC4 : Offering := { id := oidC4, cars_count := 2, shares_total := 20 }
def stC4 : St := { emptySt with offerings := [offC4] }
def reqC4 : RunDistribution := { offering_id := oidC4, month := 7, total_amount := 0 }

def inv5 : Investment :=
  { id := i5, user_id := u5, offering_id := oid1, shares := 5, status := InvStatus.active }
def stC5 : St := { emptySt with investments := [inv5] }

def offC6 : Offering := { id := oidC6, cars_count := 100, shares_total := 1000 }
def invZ : Investment :=
  { id := iZ, user_id := uZ, offering_id := oidC6, shares := 3, status := InvStatus.active }
def invNZ : Investment :=
  { id := iNZ, user_id := uNZ, offering_id := oidC6, shares := 800, status := InvStatus.active }
def stC6 : St := { emptySt with offerings := [offC6], investments := [invZ, invNZ] }
def reqC6 : RunDistribution := { offering_id := oidC6, month := 2, total_amount := 1 }

def offC8 : Offering := { id := emptyId, cars_count := 1, shares_total := 20 }
def offLow : Offering := { id := emptyId, cars_count := 2, shares_total := 15 }
def offOk : Offering := { id := emptyId, cars_count := 3, shares_total := 30 }

def invX : Investment :=
  { id := iX, user_id := uX, offering_id := oid1, shares := 7, status := InvStatus.defaulted }
def stC10 : St := { emptySt with investments := [invX] }

def c1Calls : List CreditCall :=
  [{ amount := 5, tx_type := txTopup, reference_id := none, meta := none },
   { amount := -2, tx_type := txInstalmentPayment, reference_id := some refStr, meta := none }]

/-! ### Claims -/

/-- C1: starting from a state where the user has zero balance and no log
entries, any finite sequence of `credit_wallet` calls (amounts of either sign)
leaves the balance equal to the sum of all credited amounts and the per-user
transaction log with exactly one entry per call, recording that call's amount;
moreover each single call shifts the balance by exactly the amount of the one
transaction it appends. -/
theorem C1_ledger_fold (st : St) (uid : String) (calls : List CreditCall)
    (hb : balanceOf st uid = 0) (ht : txsFor st uid = []) :
    balanceOf (applyCredits st uid calls) uid = (calls.map CreditCall.amount).sum ∧
    (txsFor (applyCredits st uid calls) uid).length = calls.length ∧
    (txsFor (applyCredits st uid calls) uid).map Transaction.amount =
      calls.map CreditCall.amount ∧
    ∀ (s : St) (c : CreditCall),
      balanceOf (credit_wallet s uid c.amount c.tx_type c.reference_id c.meta) uid =
        balanceOf s uid + c.amount ∧
      txsFor (credit_wallet s uid c.amount c.tx_type c.reference_id c.meta) uid =
        txsFor s uid ++ [creditTx uid c] := by
  refine ⟨?_, ?_, ?_, ?_⟩
  · rw [applyCredits_balanceOf, hb, zero_add]
  · rw [txsFor_applyCredits, ht, List.nil_append, List.length_map]
  · rw [txsFor_applyCredits, ht, List.nil_append, List.map_map]
    simp [creditTx, Function.comp]
  · intro s c
    refine ⟨?_, ?_⟩
    · rw [credit_wallet_balanceOf, if_pos rfl]
    · unfold txsFor
      rw [credit_wallet_transactions, List.filter_append]
      simp [creditTx]

theorem C1_ledger_fold_witness :
    balanceOf emptySt u1 = 0 ∧ txsFor emptySt u1 = [] ∧
    balanceOf (applyCredits emptySt u1 c1Calls) u1 = (c1Calls.map CreditCall.amount).sum ∧
    (txsFor (applyCredits emptySt u1 c1Calls) u1).length = c1Calls.length ∧
    balanceOf (applyCredits emptySt u1 c1Calls) u1 = 3 := by
  have h := C1_ledger_fold emptySt u1 c1Calls rfl rfl
  refine ⟨rfl, rfl, h.1, h.2.1, ?_⟩
  rw [h.1]
  norm_num [c1Calls]

/-- C3: `run_distribution` fails with 404 "Offering not found" (the spec's
NotFound) when no offering with the requested id exists, and with 400
"Offering has no shares_total" (the spec's InvalidState) when `shares_total`
is not positive.  A failing run returns only the error and no successor
store: the source raises before any credit, Transaction append, or
Distribution write, so the store is untouched. -/
theorem C3_failure_modes (st : St) (req : RunDistribution) :
    (findOffering st req.offering_id = none →
      run_distribution st req = Except.error offeringNotFound) ∧
    (∀ off, findOffering st req.offering_id = some off → off.shares_total ≤ 0 →
      run_distribution st req = Except.error offeringNoShares) := by
  constructor
  · intro h
    unfold run_distribution
    simp only [h]
  · intro off hoff hle
    unfold run_distribution
    simp only [hoff]
    rw [if_pos hle]

theorem C3_failure_modes_witness :
    run_distribution stC3 reqMissing = Except.error offeringNotFound ∧
    run_distribution stC3 reqZero = Except.error offeringNoShares :=
  ⟨(C3_failure_modes stC3 reqMissing).1 (by decide),
   (C3_failure_modes stC3 reqZero).2 off0 (by decide) (by decide)⟩

/-- C8 as stated is false on the code: a pydantic-valid offering whose
`shares_total` differs from `cars_count * 10` (here 20 ≠ 1 × 10) is accepted
and persisted, because `create_offering` only rejects
`shares_total < cars_count * 10`. -/
theorem C8_counterexample :
    Offering.valid offC8 ∧ offC8.shares_total ≠ offC8.cars_count * 10 ∧
    create_offering emptySt offC8 =
      Except.ok (toString emptySt.nextId,
        { emptySt with
            offerings := emptySt.offerings ++ [{ offC8 with id := toString emptySt.nextId }],
            nextId := emptySt.nextId + 1 }) :=
  ⟨⟨by decide, by decide⟩, by decide, rfl⟩

/-- C8 (amended): offering creation enforces `shares_total ≥ cars_count * 10`
as a floor, not equality: `create_offering` rejects with the 400
ValidationError exactly when `shares_total < cars_count * 10`, before
persistence, and accepts and persists the offering otherwise. -/
theorem C8_amended_floor (st : St) (off : Offering) :
    (off.shares_total < off.cars_count * 10 →
      create_offering st off = Except.error sharesTooLow) ∧
    (off.cars_count * 10 ≤ off.shares_total →
      create_offering st off = Except.ok (toString st.nextId,
        { st with offerings := st.offerings ++ [{ off with id := toString st.nextId }],
                  nextId := st.nextId + 1 })) := by
  constructor
  · intro h
    unfold create_offering
    rw [if_pos h]
  · intro h
    unfold create_offering
    rw [if_neg (by omega)]

theorem C8_amended_floor_witness :
    create_offering emptySt offLow = Except.error sharesTooLow ∧
    create_offering emptySt offOk = Except.ok (toString emptySt.nextId,
      { emptySt with
          offerings := emptySt.offerings ++ [{ offOk with id := toString emptySt.nextId }],
          nextId := emptySt.nextId + 1 }) :=
  ⟨(C8_amended_floor emptySt offLow).1 (by decide),
   (C8_amended_floor emptySt offOk).2 (by decide)⟩

/-- C9 (code bug in the source): the first `ensure_wallet` call for a fresh
user does create exactly one zero-balance wallet, and a second call is
idempotent — it creates nothing, returns the wallet, and leaves the store
unchanged; but the first call itself returns `None` instead of the created
wallet, because main.py line 35 passes the freshly found wallet document
itself as the `_id` filter value of the outer `find_one`, which matches no
stored id. -/
theorem C9_ensure_wallet_return_bug :
    (ensure_wallet emptySt u1).1 = none ∧
    walletsFor (ensure_wallet emptySt u1).2 u1 =
      [{ id := zeroId, user_id := u1, balance := 0, currency := usd }] ∧
    ensure_wallet (ensure_wallet emptySt u1).2 u1 =
      (some { id := zeroId, user_id := u1, balance := 0, currency := usd },
        (ensure_wallet emptySt u1).2) :=
  ⟨rfl, rfl, rfl⟩

end DriveShare

namespace DriveShare

/-- C2: for a successful distribution run (offering present, `shares_total`
positive), with `per_share = total_amount / shares_total`, every active
investment of the offering with nonzero rounded entitlement produces exactly
one transaction of kind `rental_distribution` with amount
`round2 (shares * per_share)`, `reference_id` the investment's id, and meta
`{offering_id, month, per_share}`; non-active investments contribute no
transaction; and every user's balance rises by exactly the sum of the rounded
entitlements of that user's active investments in this offering (an
entitlement that rounds to zero adds zero, cf. C6). -/
theorem C2_prorata_credits (st : St) (req : RunDistribution) (off : Offering)
    (hoff : findOffering st req.offering_id = some off) (hpos : 0 < off.shares_total) :
    ∃ st2,
      run_distribution st req =
        Except.ok (req.total_amount / (off.shares_total : ℚ), st2) ∧
      st2.transactions = st.transactions ++
        ((activeInvs st req.offering_id).filter (fun i =>
            decide (round2 ((i.shares : ℚ) *
              (req.total_amount / (off.shares_total : ℚ))) ≠ 0))).map
          (fun i =>
            { user_id := i.user_id, type := txRental,
              amount := round2 ((i.shares : ℚ) *
                (req.total_amount / (off.shares_total : ℚ))),
              reference_id := some i.id,
              meta := Meta.distribution req.offering_id req.month
                (req.total_amount / (off.shares_total : ℚ)) }) ∧
      (∀ uid, balanceOf st2 uid = balanceOf st uid +
        (((activeInvs st req.offering_id).filter (fun i => decide (i.user_id = uid))).map
          (fun i => round2 ((i.shares : ℚ) *
            (req.total_amount / (off.shares_total : ℚ))))).sum) := by
  obtain ⟨st2, h1, h2, h3, h4, h5, h6, h7⟩ := run_distribution_ok st req off hoff hpos
  refine ⟨st2, h1, ?_, ?_⟩
  · rw [h2]; rfl
  · intro uid
    rw [h7 uid]; rfl

theorem C2_prorata_credits_witness :
    ∃ st2, run_distribution stW reqW = Except.ok (10, st2) ∧
      balanceOf st2 uA = 300 ∧ balanceOf st2 uB = 700 ∧ balanceOf st2 uC = 0 := by
  obtain ⟨st2, h1, h2, h3⟩ := C2_prorata_credits stW reqW offW (by decide) (by decide)
  have hps : reqW.total_amount / ((offW.shares_total : Int) : ℚ) = 10 := by
    norm_num [reqW, offW]
  rw [hps] at h1
  simp only [hps] at h3
  have hA := h3 uA
  have hB := h3 uB
  have hC := h3 uC
  have hfA : (activeInvs stW reqW.offering_id).filter (fun i => decide (i.user_id = uA))
      = [invA] := by decide
  have hfB : (activeInvs stW reqW.offering_id).filter (fun i => decide (i.user_id = uB))
      = [invB] := by decide
  have hfC : (activeInvs stW reqW.offering_id).filter (fun i => decide (i.user_id = uC))
      = [] := by decide
  rw [hfA] at hA
  rw [hfB] at hB
  rw [hfC] at hC
  have hbA : balanceOf stW uA = 0 := rfl
  have hbB : balanceOf stW uB = 0 := rfl
  have hbC : balanceOf stW uC = 0 := rfl
  rw [hbA] at hA
  rw [hbB] at hB
  rw [hbC] at hC
  refine ⟨st2, h1, ?_, ?_, ?_⟩
  · rw [hA]
    norm_num [invA, round2, roundHalfEven]
  · rw [hB]
    norm_num [invB, round2, roundHalfEven]
  · rw [hC]
    norm_num

/-- C4: every successful `run_distribution` appends exactly one Distribution
record with the request's offering_id, month, total_amount and the computed
per_share; the append is unconditional after the loop, so it happens even with
zero active investments or `total_amount = 0`. -/
theorem C4_distribution_record (st : St) (req : RunDistribution) (off : Offering)
    (hoff : findOffering st req.offering_id = some off) (hpos : 0 < off.shares_total) :
    ∃ st2,
      run_distribution st req =
        Except.ok (req.total_amount / (off.shares_total : ℚ), st2) ∧
      st2.distributions = st.distributions ++
        [{ offering_id := req.offering_id, month := req.month,
           total_amount := req.total_amount,
           per_share := req.total_amount / (off.shares_total : ℚ) }] := by
  obtain ⟨st2, h1, h2, h3, h4, h5, h6, h7⟩ := run_distribution_ok st req off hoff hpos
  exact ⟨st2, h1, h4⟩

theorem C4_distribution_record_witness :
    ∃ st2, run_distribution stC4 reqC4 = Except.ok (0, st2) ∧
      st2.distributions =
        [{ offering_id := oidC4, month := 7, total_amount := 0, per_share := 0 }] := by
  obtain ⟨st2, h1, h4⟩ := C4_distribution_record stC4 reqC4 offC4 (by decide) (by decide)
  have hps : reqC4.total_amount / ((offC4.shares_total : Int) : ℚ) = 0 := by
    norm_num [reqC4, offC4]
  rw [hps] at h1 h4
  refine ⟨st2, h1, ?_⟩
  rw [h4]
  rfl

end DriveShare

namespace DriveShare

/-- C5: `exit_investment` fails with 404 "Investment not found" (NotFound)
when no investment has the requested id; otherwise it marks the (first
matching) investment exited, appends one transaction of kind `exit_payout`
with amount `round2 (shares * 0.9 * 100)` and reference_id the investment id,
credits the user's balance by exactly that payout and returns it; for
shares = 5 the payout is exactly 450. -/
theorem C5_exit_payout (st : St) (iid : String) :
    (findInvestment st iid = none →
      exit_investment st { investment_id := iid } = Except.error investmentNotFound) ∧
    (∀ inv, findInvestment st iid = some inv →
      ∃ st3,
        exit_investment st { investment_id := iid } =
          Except.ok (round2 ((inv.shares : ℚ) * (9 / 10) * 100), st3) ∧
        findInvestment st3 iid = some { inv with status := InvStatus.exited } ∧
        st3.transactions = st.transactions ++
          [{ user_id := inv.user_id, type := txExitPayout,
             amount := round2 ((inv.shares : ℚ) * (9 / 10) * 100),
             reference_id := some inv.id, meta := Meta.empty }] ∧
        balanceOf st3 inv.user_id = balanceOf st inv.user_id +
          round2 ((inv.shares : ℚ) * (9 / 10) * 100)) ∧
    round2 ((5 : ℚ) * (9 / 10) * 100) = 450 := by
  refine ⟨?_, ?_, by norm_num [round2, roundHalfEven]⟩
  · intro h
    unfold exit_investment
    simp only [h]
  · intro inv h
    obtain ⟨st3, h1, h2, h3, h4, h5, h6, h7, h8⟩ := exit_investment_ok st iid inv h
    refine ⟨st3, h1, h3, ?_, ?_⟩
    · rw [h4]
      rfl
    · rw [h8 inv.user_id, if_pos rfl]

theorem C5_exit_payout_witness :
    exit_investment emptySt { investment_id := i5 } = Except.error investmentNotFound ∧
    ∃ st3, exit_investment stC5 { investment_id := i5 } = Except.ok (450, st3) ∧
      balanceOf st3 u5 = 450 := by
  refine ⟨(C5_exit_payout emptySt i5).1 (by decide), ?_⟩
  obtain ⟨st3, h1, h2, h3, h4⟩ := (C5_exit_payout stC5 i5).2.1 inv5 (by decide)
  have hp : round2 ((inv5.shares : ℚ) * (9 / 10) * 100) = 450 := by
    norm_num [inv5, round2, roundHalfEven]
  rw [hp] at h1 h4
  refine ⟨st3, h1, ?_⟩
  show balanceOf st3 inv5.user_id = 450
  rw [h4]
  have hb : balanceOf stC5 inv5.user_id = 0 := rfl
  rw [hb]
  norm_num

/-- C6: during a successful distribution run, an active investment whose
rounded entitlement `round2 (shares * per_share)` is exactly zero is skipped:
the appended transactions and the emitted notifications are exactly those of
the active investments with nonzero rounded entitlement (so a zero-entitlement
investment produces neither), and a user all of whose active investments in
the offering round to zero sees no balance change at all. -/
theorem C6_zero_suppression (st : St) (req : RunDistribution) (off : Offering)
    (hoff : findOffering st req.offering_id = some off) (hpos : 0 < off.shares_total) :
    ∃ st2,
      run_distribution st req =
        Except.ok (req.total_amount / (off.shares_total : ℚ), st2) ∧
      st2.transactions = st.transactions ++
        ((activeInvs st req.offering_id).filter (fun i =>
            decide (round2 ((i.shares : ℚ) *
              (req.total_amount / (off.shares_total : ℚ))) ≠ 0))).map
          (distTx req.offering_id req.month (req.total_amount / (off.shares_total : ℚ))) ∧
      st2.notifications = st.notifications ++
        ((activeInvs st req.offering_id).filter (fun i =>
            decide (round2 ((i.shares : ℚ) *
              (req.total_amount / (off.shares_total : ℚ))) ≠ 0))).map
          (distNote req.month (req.total_amount / (off.shares_total : ℚ))) ∧
      (∀ uid,
        (∀ inv ∈ (activeInvs st req.offering_id).filter (fun i => decide (i.user_id = uid)),
          round2 ((inv.shares : ℚ) * (req.total_amount / (off.shares_total : ℚ))) = 0) →
        balanceOf st2 uid = balanceOf st uid) := by
  obtain ⟨st2, h1, h2, h3, h4, h5, h6, h7⟩ := run_distribution_ok st req off hoff hpos
  refine ⟨st2, h1, by rw [h2]; rfl, by rw [h3]; rfl, ?_⟩
  intro uid hz
  rw [h7 uid]
  have hzero : entSum (req.total_amount / (off.shares_total : ℚ))
      (activeInvs st req.offering_id) uid = 0 := by
    unfold entSum
    apply List.sum_eq_zero
    intro x hx
    obtain ⟨i, hi, hxi⟩ := List.mem_map.mp hx
    rw [← hxi]
    exact hz i hi
  rw [hzero, add_zero]

theorem C6_zero_suppression_witness :
    ∃ st2, run_distribution stC6 reqC6 = Except.ok (1 / 1000, st2) ∧
      balanceOf st2 uZ = 0 ∧
      st2.transactions = [distTx oidC6 2 (1 / 1000) invNZ] := by
  obtain ⟨st2, h1, h2, h3, h4⟩ := C6_zero_suppression stC6 reqC6 offC6 (by decide) (by decide)
  have hps : reqC6.total_amount / ((offC6.shares_total : Int) : ℚ) = 1 / 1000 := by
    norm_num [reqC6, offC6]
  rw [hps] at h1
  simp only [hps] at h2
  have ha : activeInvs stC6 reqC6.offering_id = [invZ, invNZ] := by decide
  rw [ha] at h2
  have hz0 : round2 ((invZ.shares : ℚ) * (1 / 1000)) = 0 := by
    norm_num [invZ, round2, roundHalfEven]
  have hnz0 : ¬ round2 ((invNZ.shares : ℚ) * (1 / 1000)) = 0 := by
    norm_num [invNZ, round2, roundHalfEven]
  refine ⟨st2, h1, ?_, ?_⟩
  · apply h4
    have hf : (activeInvs stC6 reqC6.offering_id).filter (fun i => decide (i.user_id = uZ))
        = [invZ] := by decide
    rw [hf]
    intro inv hi
    rw [List.mem_singleton] at hi
    subst hi
    rw [hps]
    exact hz0
  · rw [h2]
    simp only [List.filter_cons, List.filter_nil, hz0, hnz0, ne_eq, decide_not,
      decide_eq_true_eq]
    simp
    rfl

/-- C7: `run_distribution` is not idempotent: a second run with identical
arguments succeeds again (there is no guard keyed on (offering_id, month)),
credits every active investor the same amounts again — so each user's balance
delta and per-user new-transaction count after two runs are exactly double
those of one run — and a second identical Distribution record is written. -/
theorem C7_not_idempotent (st : St) (req : RunDistribution) (off : Offering)
    (hoff : findOffering st req.offering_id = some off) (hpos : 0 < off.shares_total) :
    ∃ st1 st2,
      run_distribution st req =
        Except.ok (req.total_amount / (off.shares_total : ℚ), st1) ∧
      run_distribution st1 req =
        Except.ok (req.total_amount / (off.shares_total : ℚ), st2) ∧
      (∀ uid,
        balanceOf st1 uid = balanceOf st uid +
          entSum (req.total_amount / (off.shares_total : ℚ))
            (activeInvs st req.offering_id) uid ∧
        balanceOf st2 uid = balanceOf st uid +
          2 * entSum (req.total_amount / (off.shares_total : ℚ))
            (activeInvs st req.offering_id) uid) ∧
      (∀ uid,
        (txsFor st1 uid).length = (txsFor st uid).length +
          ((distTxs req.offering_id req.month (req.total_amount / (off.shares_total : ℚ))
            (activeInvs st req.offering_id)).filter
              (fun t => decide (t.user_id = uid))).length ∧
        (txsFor st2 uid).length = (txsFor st uid).length +
          2 * ((distTxs req.offering_id req.month (req.total_amount / (off.shares_total : ℚ))
            (activeInvs st req.offering_id)).filter
              (fun t => decide (t.user_id = uid))).length) ∧
      st2.distributions = st.distributions ++
        [{ offering_id := req.offering_id, month := req.month,
           total_amount := req.total_amount,
           per_share := req.total_amount / (off.shares_total : ℚ) },
         { offering_id := req.offering_id, month := req.month,
           total_amount := req.total_amount,
           per_share := req.total_amount / (off.shares_total : ℚ) }] := by
  obtain ⟨st1, h1, h2, h3, h4, h5, h6, h7⟩ := run_distribution_ok st req off hoff hpos
  have hoff1 : findOffering st1 req.offering_id = some off := by
    unfold findOffering
    rw [h6]
    exact hoff
  obtain ⟨st2, g1, g2, g3, g4, g5, g6, g7⟩ := run_distribution_ok st1 req off hoff1 hpos
  have hact : activeInvs st1 req.offering_id = activeInvs st req.offering_id := by
    unfold activeInvs
    rw [h5]
  refine ⟨st1, st2, h1, g1, ?_, ?_, ?_⟩
  · intro uid
    refine ⟨h7 uid, ?_⟩
    rw [g7 uid, hact, h7 uid]
    ring
  · intro uid
    constructor
    · unfold txsFor
      rw [h2, List.filter_append, List.length_append]
    · unfold txsFor
      rw [g2, hact, h2, List.filter_append, List.filter_append,
        List.length_append, List.length_append]
      omega
  · rw [g4, h4, List.append_assoc]
    rfl

theorem C7_not_idempotent_witness :
    ∃ st1 st2,
      run_distribution stW reqW = Except.ok (10, st1) ∧
      run_distribution st1 reqW = Except.ok (10, st2) ∧
      balanceOf st1 uA = 300 ∧ balanceOf st2 uA = 600 ∧
      st2.distributions.length = 2 := by
  obtain ⟨st1, st2, h1, g1, hbal, htx, hdist⟩ :=
    C7_not_idempotent stW reqW offW (by decide) (by decide)
  have hps : reqW.total_amount / ((offW.shares_total : Int) : ℚ) = 10 := by
    norm_num [reqW, offW]
  rw [hps] at h1 g1
  have hS : entSum (reqW.total_amount / ((offW.shares_total : Int) : ℚ))
      (activeInvs stW reqW.offering_id) uA = 300 := by
    have ha : activeInvs stW reqW.offering_id = [invA, invB] := by decide
    rw [ha]
    unfold entSum
    have hf : [invA, invB].filter (fun i => decide (i.user_id = uA)) = [invA] := by decide
    rw [hf]
    simp only [List.map_cons, List.map_nil, List.sum_cons, List.sum_nil]
    norm_num [invA, reqW, offW, round2, roundHalfEven]
  obtain ⟨hb1, hb2⟩ := hbal uA
  rw [hS] at hb1 hb2
  have hb0 : balanceOf stW uA = 0 := rfl
  rw [hb0] at hb1 hb2
  refine ⟨st1, st2, h1, g1, by rw [hb1]; norm_num, by rw [hb2]; norm_num, ?_⟩
  rw [hdist]
  rfl

/-- C10: `exit_investment` has no status guard: any investment found by id,
whatever its status (already exited or defaulted included), is processed —
status is (re)set to exited and the full payout `round2 (shares * 0.9 * 100)`
is credited again; two consecutive calls therefore pay out twice. -/
theorem C10_repeat_exit (st : St) (iid : String) (inv : Investment)
    (h : findInvestment st iid = some inv) :
    ∃ st3 st6,
      exit_investment st { investment_id := iid } =
        Except.ok (round2 ((inv.shares : ℚ) * (9 / 10) * 100), st3) ∧
      findInvestment st3 iid = some { inv with status := InvStatus.exited } ∧
      exit_investment st3 { investment_id := iid } =
        Except.ok (round2 ((inv.shares : ℚ) * (9 / 10) * 100), st6) ∧
      findInvestment st6 iid = some { inv with status := InvStatus.exited } ∧
      balanceOf st6 inv.user_id = balanceOf st inv.user_id +
        2 * round2 ((inv.shares : ℚ) * (9 / 10) * 100) ∧
      (txsFor st6 inv.user_id).length = (txsFor st inv.user_id).length + 2 := by
  obtain ⟨st3, h1, h2, h3, h4, h5, h6, h7, h8⟩ := exit_investment_ok st iid inv h
  obtain ⟨st6, g1, g2, g3, g4, g5, g6, g7, g8⟩ :=
    exit_investment_ok st3 iid { inv with status := InvStatus.exited } h3
  refine ⟨st3, st6, h1, h3, g1, g3, ?_, ?_⟩
  · rw [g8 inv.user_id,
      if_pos (show ({ inv with status := InvStatus.exited } : Investment).user_id
        = inv.user_id from rfl)]
    rw [h8 inv.user_id, if_pos rfl]
    show balanceOf st inv.user_id + round2 ((inv.shares : ℚ) * (9 / 10) * 100)
        + round2 ((inv.shares : ℚ) * (9 / 10) * 100)
      = balanceOf st inv.user_id + 2 * round2 ((inv.shares : ℚ) * (9 / 10) * 100)
    ring
  · unfold txsFor
    rw [g4, h4, List.filter_append, List.filter_append,
      List.length_append, List.length_append]
    have he1 : [exitTx inv].filter (fun t => decide (t.user_id = inv.user_id))
        = [exitTx inv] := by simp [exitTx]
    have he2 : [exitTx { inv with status := InvStatus.exited }].filter
        (fun t => decide (t.user_id = inv.user_id))
        = [exitTx { inv with status := InvStatus.exited }] := by simp [exitTx]
    rw [he1, he2]
    simp

theorem C10_repeat_exit_witness :
    ∃ st3 st6,
      exit_investment stC10 { investment_id := iX } = Except.ok (630, st3) ∧
      exit_investment st3 { investment_id := iX } = Except.ok (630, st6) ∧
      balanceOf st6 uX = 1260 := by
  obtain ⟨st3, st6, h1, h2, g1, g2, hb, ht⟩ := C10_repeat_exit stC10 iX invX (by decide)
  have hp : round2 ((invX.shares : ℚ) * (9 / 10) * 100) = 630 := by
    norm_num [invX, round2, roundHalfEven]
  rw [hp] at h1 g1 hb
  refine ⟨st3, st6, h1, g1, ?_⟩
  show balanceOf st6 invX.user_id = 1260
  rw [hb]
  have hb0 : balanceOf stC10 invX.user_id = 0 := rfl
  rw [hb0]
  norm_num

end DriveShare
